import Mathlib

/-!
Verification of the joinstr coinjoin engine against its natural-language
specification.  The Rust sources are shallowly embedded: each Lean definition
mirrors one Rust function of the repository (file and function named in its
doc comment).  Calls into external crates (rust-bitcoin consensus codecs,
serde, secp256k1, the url crate) are passed in as explicit function
parameters, and the facts the proofs need about them appear as hypotheses
that are discharged on concrete instances in the witness theorems.
-/

namespace Joinstr

/-! ## JSON model

`serde_json::Value`, restricted to what the pool-message codec produces and
inspects.  Objects are association lists; `serde_json`'s `Map` is keyed
lookup, which `getKey` mirrors.  The text layer (`to_string` / `from_str` of
a `Value`) is the identity on this model, so "parse (serialize m)" is
modelled as the composition of the `Value`-level encoder and decoder. -/

inductive Json where
  | null : Json
  | bool : Bool → Json
  | num : Int → Json
  | str : String → Json
  | arr : List Json → Json
  | obj : List (String × Json) → Json

/-- Lookup of a key in a JSON object body (`serde_json::Map::get`). -/
def getKey (m : List (String × Json)) (k : String) : Option Json :=
  match m with
  | [] => none
  | (key, v) :: rest => if key = k then some v else getKey rest k

/-! ## Bitcoin data model (the fields the repository reads and writes) -/

structure OutPoint where
  txid : Nat
  vout : Nat
deriving DecidableEq, Repr

structure TxOut where
  value : Nat
  script_pubkey : List Nat
deriving DecidableEq, Repr

/-- A transaction input.  The witness is a stack of byte vectors; the
consensus serialization of a `TxIn` (used by `serialize_hex`) does NOT
include the witness, which is why the codec carries it in a separate
field. -/
structure TxIn where
  previous_output : OutPoint
  script_sig : List Nat
  sequence : Nat
  witness : List (List Nat)
deriving DecidableEq, Repr

/-- `deserialize_hex::<TxIn>` always yields an input with an empty witness:
the witness is not part of the `TxIn` consensus encoding. -/
def clearWitness (t : TxIn) : TxIn :=
  { t with witness := [] }

structure Transaction where
  version : Int
  lock_time : Nat
  input : List TxIn
  output : List TxOut
deriving DecidableEq, Repr

structure PsbtInput where
  witness_utxo : Option TxOut
  sighash_type : Option Nat
  final_script_witness : Option (List (List Nat))
deriving DecidableEq, Repr

structure Psbt where
  unsigned_tx : Transaction
  inputs : List PsbtInput
deriving DecidableEq, Repr

/-! ## Pool message codec (src/src/nostr/mod.rs) -/

/-- `InputDataSigned` (src/src/nostr/mod.rs). Rust amounts are `Amount`
(sats, u64); modelled as `Nat`. -/
structure InputDataSigned where
  txin : TxIn
  amount : Option Nat
deriving DecidableEq, Repr

/-- `Credentials` (src/src/nostr/mod.rs).  The nostr public/secret keys are
carried by their lower-hex string serializations: `serialize_key` writes the
secret key as its 32-byte lower-hex string and the nostr deserializer
accepts exactly that form back, so on this model the key serde is the
identity on the hex string. -/
structure Credentials where
  id : String
  key : String
deriving DecidableEq, Repr

/-- `PoolMessage` (src/src/nostr/mod.rs).  `nostr_sdk::PublicKey` is carried
as its hex-string serde form; `Address<NetworkUnchecked>` as its textual
form. -/
inductive PoolMessage where
  | Input : InputDataSigned → PoolMessage
  | Output : String → PoolMessage
  | Psbt : Psbt → PoolMessage
  | Transaction : Transaction → PoolMessage
  | Join : Option String → PoolMessage
  | Credentials : Credentials → PoolMessage
deriving DecidableEq, Repr

/-- `ParsingError` (src/src/nostr/mod.rs).  `SerdeJson` carries an opaque
`serde_json::Error`; the payload is dropped in the model. -/
inductive ParsingError where
  | SerdeJson : ParsingError
  | Unknown : ParsingError
  | UnknownType : String → ParsingError
  | Input : ParsingError
  | Output : ParsingError
  | Psbt : ParsingError
  | Transaction : ParsingError
  | Join : ParsingError
  | NotAnObject : ParsingError
  | MissingKey : String → ParsingError
  | WrongValue : String → ParsingError
  | Consensus : ParsingError
  | Credential : ParsingError
  | VersionNotSupported : String → ParsingError
  | VersionMissing : ParsingError
deriving DecidableEq, Repr

/-- The external serialization primitives the codec calls into
(rust-bitcoin `serialize_hex` / `deserialize_hex`, serde impls of
`Psbt`, `Address`, `nostr_sdk::PublicKey`, `Credentials`).  They are
parameters of the embedding; the roundtrip facts the theorems need about
them are stated as hypotheses at the point of use. -/
structure SerdePrims where
  ser_txin : TxIn → String
  deser_txin : String → Option TxIn
  ser_witness : List (List Nat) → String
  deser_witness : String → Option (List (List Nat))
  ser_tx : Transaction → String
  deser_tx : String → Option Transaction
  psbt_to_value : Psbt → Json
  psbt_from_str : String → Option Psbt
  addr_from_str : String → Option String
  pk_from_value : Json → Option String
  cred_from_value : Json → Option Credentials

/-- serde deserialization of a satoshi `Amount` (u64) from a JSON value:
a non-negative integer below 2^64. -/
def amountFromValue (v : Json) : Option Nat :=
  match v with
  | Json.num (Int.ofNat m) => if m < 18446744073709551616 then some m else none
  | _ => none

/-- `InputDataSigned::to_json` (src/src/nostr/mod.rs:347-357).  The `txin`
is consensus-hex serialized (without its witness), the witness is a separate
consensus-hex field, and the `amount` key is inserted only when the amount
is `Some`. -/
def InputDataSigned.to_json (P : SerdePrims) (i : InputDataSigned) : Json :=
  Json.obj
    ([("txin", Json.str (P.ser_txin i.txin)),
      ("witness", Json.str (P.ser_witness i.txin.witness))] ++
      (match i.amount with
       | some amount => [("amount", Json.num amount)]
       | none => []))

/-- `InputDataSigned::from_value` (src/src/nostr/mod.rs:375-405):
deserializes `txin`, overwrites its witness from the separate `witness`
field, then REQUIRES an `amount` key (`MissingKey("amount")` otherwise). -/
def InputDataSigned.from_value (P : SerdePrims) (v : Json) :
    Except ParsingError InputDataSigned :=
  match v with
  | Json.obj map =>
    match getKey map "txin" with
    | none => Except.error (ParsingError.MissingKey "txin")
    | some txinVal =>
      match txinVal with
      | Json.str s =>
        match P.deser_txin s with
        | none => Except.error ParsingError.Consensus
        | some txin =>
          match getKey map "witness" with
          | none => Except.error (ParsingError.MissingKey "witness")
          | some witVal =>
            match witVal with
            | Json.str ws =>
              match P.deser_witness ws with
              | none => Except.error ParsingError.Consensus
              | some wit =>
                match getKey map "amount" with
                | none => Except.error (ParsingError.MissingKey "amount")
                | some av =>
                  match amountFromValue av with
                  | none => Except.error ParsingError.SerdeJson
                  | some amount =>
                    Except.ok { txin := { txin with witness := wit },
                                amount := some amount }
            | _ => Except.error (ParsingError.WrongValue "witness")
      | _ => Except.error (ParsingError.WrongValue "txin")
  | _ => Except.error ParsingError.NotAnObject

/-- The `"type"` discriminator written by `PoolMessage::to_json`
(src/src/nostr/mod.rs:410-417). -/
def PoolMessage.msgType (m : PoolMessage) : String :=
  match m with
  | PoolMessage.Input _ => "input"
  | PoolMessage.Output _ => "output"
  | PoolMessage.Psbt _ => "psbt"
  | PoolMessage.Transaction _ => "transaction"
  | PoolMessage.Join _ => "join_pool"
  | PoolMessage.Credentials _ => "credentials"

/-- serde serialization of `Credentials`: a JSON object with the pool `id`
and the secret key written as its lower-hex string (`serialize_key`). -/
def credToValue (c : Credentials) : Json :=
  Json.obj [("id", Json.str c.id), ("key", Json.str c.key)]

/-- `PoolMessage::to_json` (src/src/nostr/mod.rs:409-445).  Every message
gets `version = "1"` and a `type` tag; the payload key depends on the
variant.  Note the `Psbt` payload is `serde_json::to_value(psbt)` (the
derived serde form), while `Transaction` is a consensus-hex STRING. -/
def PoolMessage.to_json (P : SerdePrims) (m : PoolMessage) : Json :=
  Json.obj
    ([("version", Json.str "1"), ("type", Json.str m.msgType)] ++
      (match m with
       | PoolMessage.Psbt psbt => [("psbt", P.psbt_to_value psbt)]
       | PoolMessage.Transaction tx => [("transaction", Json.str (P.ser_tx tx))]
       | PoolMessage.Join npub =>
         (match npub with
          | some npub => [("npub", Json.str npub)]
          | none => [])
       | PoolMessage.Input input => [("input", InputDataSigned.to_json P input)]
       | PoolMessage.Output addr => [("address", Json.str addr)]
       | PoolMessage.Credentials cred => [("credentials", credToValue cred)]))

/-- The per-type dispatch of `PoolMessage::from_str`
(src/src/nostr/mod.rs:267-326), applied after the version check. -/
def PoolMessage.parseTyped (P : SerdePrims) (map : List (String × Json))
    (t : String) : Except ParsingError PoolMessage :=
  if t = "psbt" then
    match getKey map "psbt" with
    | some (Json.str psbt) =>
      match P.psbt_from_str psbt with
      | some psbt => Except.ok (PoolMessage.Psbt psbt)
      | none => Except.error ParsingError.SerdeJson
    | _ => Except.error ParsingError.Psbt
  else if t = "input" then
    match getKey map "input" with
    | some m =>
      match InputDataSigned.from_value P m with
      | Except.ok input => Except.ok (PoolMessage.Input input)
      | Except.error e => Except.error e
    | none => Except.error ParsingError.Input
  else if t = "output" then
    match getKey map "address" with
    | some (Json.str addr) =>
      match P.addr_from_str addr with
      | some addr => Except.ok (PoolMessage.Output addr)
      | none => Except.error ParsingError.Output
    | _ => Except.error ParsingError.Output
  else if t = "transaction" then
    match getKey map "transaction" with
    | some (Json.str s) =>
      match P.deser_tx s with
      | some tx => Except.ok (PoolMessage.Transaction tx)
      | none => Except.error ParsingError.Transaction
    | _ => Except.error ParsingError.Transaction
  else if t = "join_pool" then
    match getKey map "npub" with
    | some value =>
      match P.pk_from_value value with
      | some npub => Except.ok (PoolMessage.Join (some npub))
      | none => Except.error ParsingError.SerdeJson
    | none => Except.ok (PoolMessage.Join none)
  else if t = "credentials" then
    match getKey map "credentials" with
    | some value =>
      match P.cred_from_value value with
      | some cred => Except.ok (PoolMessage.Credentials cred)
      | none => Except.error ParsingError.SerdeJson
    | none => Except.error ParsingError.Credential
  else Except.error (ParsingError.UnknownType t)

/-- `PoolMessage::from_str` (src/src/nostr/mod.rs:253-330) on the parsed
JSON value: requires an object with `version = "1"` and a string `type`,
then dispatches on the type tag. -/
def PoolMessage.from_str (P : SerdePrims) (v : Json) :
    Except ParsingError PoolMessage :=
  match v with
  | Json.obj map =>
    match getKey map "version" with
    | some (Json.str ver) =>
      if ver = "1" then
        match getKey map "type" with
        | some (Json.str t) => PoolMessage.parseTyped P map t
        | _ => Except.error ParsingError.Unknown
      else Except.error (ParsingError.VersionNotSupported ver)
    | some _ => Except.error ParsingError.VersionMissing
    | none => Except.error ParsingError.VersionMissing
  | _ => Except.error ParsingError.Unknown

/-! ## Pool data model (src/src/nostr/mod.rs) -/

inductive Network where
  | bitcoin | testnet | signet | regtest
deriving DecidableEq, Repr

inductive PoolType where
  | Create | Update | Delete
deriving DecidableEq, Repr

/-- `Timeline` (src/src/nostr/mod.rs:134-152).  `Fixed` carries
(start, max_duration); `Timeout` carries (timeout, max_duration). -/
inductive Timeline where
  | Simple : Nat → Timeline
  | Fixed : Nat → Nat → Timeline
  | Timeout : Nat → Nat → Timeline
deriving DecidableEq, Repr

inductive Fee where
  | Fixed : Nat → Fee
  | Provider : String → Fee
deriving DecidableEq, Repr

structure Vpn where
  enable : Bool
  gateway : Option String
deriving DecidableEq, Repr

structure Tor where
  enable : Bool
deriving DecidableEq, Repr

structure Transport where
  vpn : Option Vpn
  tor : Option Tor
deriving DecidableEq, Repr

/-- `PoolPayload` (src/src/nostr/mod.rs:117-125); denomination in sats. -/
structure PoolPayload where
  denomination : Nat
  peers : Nat
  timeout : Timeline
  relays : List String
  fee : Fee
  transport : Transport
deriving DecidableEq, Repr

/-- `Pool` (src/src/nostr/mod.rs:57-69); the nostr public key is carried as
its hex string. -/
structure Pool where
  versions : Option (List String)
  id : String
  network : Network
  pool_type : PoolType
  public_key : String
  payload : Option PoolPayload
deriving DecidableEq, Repr

/-! ## Error enums -/

/-- `electrum::Error` (src/rust/joinstr/src/electrum.rs:28-34). -/
inductive ElectrumError where
  | Electrum : String → ElectrumError
  | TxParsing | WrongResponse | WrongOutPoint | TxDoesNotExists
deriving DecidableEq, Repr

/-- `coinjoin::Error` (src/rust/joinstr/src/coinjoin/error.rs). -/
inductive CoinjoinError where
  | NotEnoughPeers : Nat → Nat → CoinjoinError
  | TxToPsbt | InitPsbtExists | InitPsbtNotCreated | DoubleSpend
  | InputAmountTooLow | TxAlreadyFinalyzed | AddressReuse
  | InputValueNotMatch | InputDoesNotExists
  | FeeTooLow : Nat → Nat → Nat → CoinjoinError
  | Electrum : ElectrumError → CoinjoinError
  | FailVerifyAmount | AmountMissing
  | Unknown : String → CoinjoinError
deriving DecidableEq, Repr

/-- `joinstr::Error` (src/rust/joinstr/src/joinstr/error.rs).  The `Nostr`
and `Event` payloads are opaque errors of the relay client and are
dropped. -/
inductive JoinstrError where
  | Nostr | Event
  | Coinjoin : CoinjoinError → JoinstrError
  | Electrum : ElectrumError → JoinstrError
  | PoolAlreadyCreated | PoolAlreadyExists | PoolNotExists
  | WrongDenomination | ParamMissing | DenominationAlreadySet
  | PeersAlreadySet | Min2Peers | TimeoutAlreadySet | FeeAlreadySet
  | PeerRegistration
  | NotEnoughPeers : Nat → Nat → JoinstrError
  | NotYetImplemented
  | PeerCountNotMatch : Nat → Nat → JoinstrError
  | Timeout | CoinjoinMissing | MissingFinalTx | PoolConnectionTimeout
  | PeerAndPoolKeysNotMatch | PoolPayloadMissing
  | FeeProviderNotImplemented | TimelineNotImplemented
  | WrongAddressNetwork | OutputMissing | InputMissing
  | UnsignedTxNotExists
  | SigningFail : String → JoinstrError
  | SignerMissing | PsbtToInput | DenominationMissing | PeerMissing
  | TimeoutMissing | RelaysMissing | FeeMissing | TimelineDuration
  | AlreadyHaveInput | AlreadyHaveOutput
deriving DecidableEq, Repr

/-! ## Signer data model (src/rust/joinstr/src/signer/mod.rs) -/

structure CoinPath where
  depth : Nat
  index : Option Nat
deriving DecidableEq, Repr

structure Coin where
  txout : TxOut
  outpoint : OutPoint
  sequence : Nat
  coin_path : CoinPath
deriving DecidableEq, Repr

/-! ## Coinjoin assembler

Modelled from the spec: the `CoinJoin` assembler implementation
(rust/joinstr/src/coinjoin/mod.rs) is not present under src/ — only its
error enum is.  The structure follows spec §3 "CoinjoinAssembler" and the
fields the engine reads (`tx`, `outputs`, `inputs`).  The optional chain
backend is modelled by its one operation the assembler needs,
`get_outpoint_value`, as a pure lookup. -/
structure CoinJoin where
  denomination : Nat
  min_fee : Nat
  min_peers : Nat
  outputs : List String
  inputs : List InputDataSigned
  psbt : Option Transaction
  tx : Option Transaction
  backend : Option (OutPoint → Option Nat)

/-- Modelled from the spec (§4.F `add_input`): reject when finalized
(`TxAlreadyFinalyzed`), on a duplicate outpoint (`DoubleSpend`), on a
missing amount with no backend (`AmountMissing`), on an amount that
contradicts the chain (`InputValueNotMatch`), and on a value below the
denomination (`InputAmountTooLow`). -/
def CoinJoin.add_input (cj : CoinJoin) (input : InputDataSigned) :
    Except CoinjoinError CoinJoin :=
  if cj.tx.isSome then Except.error CoinjoinError.TxAlreadyFinalyzed
  else if cj.inputs.any
      (fun i => decide (i.txin.previous_output = input.txin.previous_output)) then
    Except.error CoinjoinError.DoubleSpend
  else
    match input.amount, cj.backend with
    | none, none => Except.error CoinjoinError.AmountMissing
    | some a, none =>
      if a < cj.denomination then Except.error CoinjoinError.InputAmountTooLow
      else Except.ok { cj with inputs := cj.inputs ++ [input] }
    | some a, some be =>
      match be input.txin.previous_output with
      | none => Except.error CoinjoinError.InputDoesNotExists
      | some v =>
        if a ≠ v then Except.error CoinjoinError.InputValueNotMatch
        else if v < cj.denomination then
          Except.error CoinjoinError.InputAmountTooLow
        else Except.ok { cj with inputs := cj.inputs ++ [input] }
    | none, some be =>
      match be input.txin.previous_output with
      | none => Except.error CoinjoinError.InputDoesNotExists
      | some v =>
        if v < cj.denomination then Except.error CoinjoinError.InputAmountTooLow
        else Except.ok
          { cj with inputs := cj.inputs ++ [{ input with amount := some v }] }

/-! ## Engine state (`JoinstrInner`, src/rust/joinstr/src/joinstr/mod.rs) -/

/-- The fields of `JoinstrInner` the verified operations touch.  The nostr
client is out of scope; `electrum_client` records only whether a chain
backend is attached (its I/O outcomes are passed to the operations that
perform them). -/
structure JoinstrState where
  initiator : Bool
  pool : Option Pool
  denomination : Option Nat
  peers : Option Nat
  timeout : Option Timeline
  relays : List String
  fee : Option Fee
  network : Network
  coinjoin : Option CoinJoin
  electrum_client : Option Unit
  input : Option Coin
  output : Option String
  final_tx : Option Transaction

/-- `JoinstrInner::pool_not_exists` (joinstr/mod.rs:721-727). -/
def pool_not_exists (st : JoinstrState) : Except JoinstrError Unit :=
  if st.pool.isSome then Except.error JoinstrError.PoolAlreadyExists
  else Except.ok ()

/-- `JoinstrInner::pool_exists` (joinstr/mod.rs:730-739): requires a pool
whose payload is present. -/
def pool_exists (st : JoinstrState) : Except JoinstrError Unit :=
  match st.pool with
  | some p =>
    match p.payload with
    | some _ => Except.ok ()
    | none => Except.error JoinstrError.PoolNotExists
  | none => Except.error JoinstrError.PoolNotExists

/-- `JoinstrInner::payload_as_ref` (joinstr/mod.rs:756-761). -/
def payload_as_ref (st : JoinstrState) : Except JoinstrError PoolPayload :=
  match st.pool with
  | none => Except.error JoinstrError.PoolNotExists
  | some p =>
    match p.payload with
    | none => Except.error JoinstrError.PoolPayloadMissing
    | some payload => Except.ok payload

/-- `JoinstrInner::is_ready` (joinstr/mod.rs:790-820). -/
def is_ready (st : JoinstrState) : Except JoinstrError Unit :=
  if st.pool.isNone && st.denomination.isSome && st.peers.isSome &&
      st.timeout.isSome && !st.relays.isEmpty && st.fee.isSome then
    Except.ok ()
  else Except.error JoinstrError.ParamMissing

/-- `JoinstrInner::end_timeline` (joinstr/mod.rs:900-918): the final
deadline of the pool. `checked_add` on u64 fails exactly when the sum
reaches 2^64. -/
def end_timeline (st : JoinstrState) : Except JoinstrError Nat :=
  match pool_exists st with
  | Except.error e => Except.error e
  | Except.ok _ =>
    match payload_as_ref st with
    | Except.error e => Except.error e
    | Except.ok payload =>
      match payload.timeout with
      | Timeline.Simple timestamp => Except.ok timestamp
      | Timeline.Fixed start max_duration =>
        if start + max_duration < 2 ^ 64 then Except.ok (start + max_duration)
        else Except.error JoinstrError.TimelineDuration
      | Timeline.Timeout timeout max_duration =>
        if timeout + max_duration < 2 ^ 64 then Except.ok (timeout + max_duration)
        else Except.error JoinstrError.TimelineDuration

/-- The `expired` deadline computed at the top of
`Joinstr::register_inputs` (joinstr/mod.rs:597-604), as a function of the
pool timeline and of `now()`, the time at which input registration starts.
For the `Timeout` variant the source uses `now() + max_duration` — not the
absolute `timeout` field.  (u64 overflow of the unchecked `+` is not
modelled; deadlines are far below 2^64.) -/
def register_inputs_deadline (now : Nat) (t : Timeline) : Nat :=
  match t with
  | Timeline.Simple timestamp => timestamp
  | Timeline.Fixed start max_duration => start + max_duration
  | Timeline.Timeout _ max_duration => now + max_duration

/-- The post-loop checks of `Joinstr::register_outputs`
(joinstr/mod.rs:563-577).  `peers_len` is the size of the deduplicated
`Join` sender set, `min_peers` is `payload.peers`, `expired` is the
`end_timeline` deadline.  On success the assembler is stored into
`inner.coinjoin` (the returned value). -/
def register_outputs_final (now expired peers_len min_peers : Nat)
    (coinjoin : CoinJoin) : Except JoinstrError CoinJoin :=
  if now > expired then Except.error JoinstrError.Timeout
  else if peers_len < min_peers then
    Except.error (JoinstrError.NotEnoughPeers peers_len min_peers)
  else if coinjoin.outputs.length ≠ peers_len then
    Except.error (JoinstrError.PeerCountNotMatch coinjoin.outputs.length peers_len)
  else Except.ok coinjoin

/-- `JoinstrInner::broadcast_tx` (joinstr/mod.rs:1080-1088).  `bres` is the
outcome `electrum_client.broadcast(&tx)` returns when a client is present.
Note the source writes `client.broadcast(&tx)?` BEFORE `self.final_tx =
Some(tx)`: a broadcast error returns early and leaves `final_tx`
untouched. -/
def broadcast_tx (st : JoinstrState) (bres : Except ElectrumError Unit) :
    Except JoinstrError Unit × JoinstrState :=
  match pool_exists st with
  | Except.error e => (Except.error e, st)
  | Except.ok _ =>
    match st.coinjoin with
    | none => (Except.error JoinstrError.CoinjoinMissing, st)
    | some cj =>
      match cj.tx with
      | none => (Except.error JoinstrError.MissingFinalTx, st)
      | some tx =>
        match st.electrum_client with
        | some _ =>
          match bres with
          | Except.error e => (Except.error (JoinstrError.Electrum e), st)
          | Except.ok _ => (Except.ok (), { st with final_tx := some tx })
        | none => (Except.ok (), { st with final_tx := some tx })

/-- `JoinstrInner::try_register_input` (joinstr/mod.rs:1016-1034).  A
rejection by `CoinJoin::add_input` is only logged (`log::error!`) and the
input dropped; the function still returns `Ok(())`.  Only a missing
assembler is surfaced. -/
def try_register_input (st : JoinstrState) (input : InputDataSigned) :
    Except JoinstrError Unit × JoinstrState :=
  match st.coinjoin with
  | none => (Except.error JoinstrError.CoinjoinMissing, st)
  | some cj =>
    match cj.add_input input with
    | Except.error _ => (Except.ok (), st)
    | Except.ok cj2 => (Except.ok (), { st with coinjoin := some cj2 })

/-! ## Engine entry (`start_coinjoin`, `join_pool`, `post`) -/

/-- The first externally visible action `Joinstr::start_coinjoin` performs:
either the peer path (`join_pool` sends a `Join(Some(own_pubkey))` DM to
the target pool's announced public key) or the initiator path (`post`
publishes a fresh kind-2022 pool announcement). -/
inductive EngineEntry where
  | joined : String → EngineEntry
  | announced : EngineEntry
deriving DecidableEq, Repr

/-- The branch taken by `Joinstr::start_coinjoin` (joinstr/mod.rs:676-690)
as a function of its `pool` argument.  `Some(pool)` stores the pool and
runs `join_pool` (joinstr/mod.rs:377-428), whose first action is the
`Join(Some(my_npub))` DM to `pool.public_key`; `None` runs
`JoinstrInner::post` (joinstr/mod.rs:829-872), which announces a fresh
pool. -/
def start_coinjoin_entry (st : JoinstrState) (pool : Option Pool) :
    Except JoinstrError EngineEntry :=
  match pool with
  | some p =>
    match pool_not_exists st with
    | Except.error e => Except.error e
    | Except.ok _ =>
      match pool_exists { st with pool := some p } with
      | Except.error e => Except.error e
      | Except.ok _ => Except.ok (EngineEntry.joined p.public_key)
  | none =>
    match is_ready st with
    | Except.error e => Except.error e
    | Except.ok _ =>
      match pool_not_exists st with
      | Except.error e => Except.error e
      | Except.ok _ => Except.ok EngineEntry.announced

/-- `Joinstr::new_peer` (joinstr/mod.rs:134-180) followed by the
`new_peer_with_electrum` wrapper (joinstr/mod.rs:195-211): validates the
pool payload (fixed fee, `Simple` timeline, address network, ≥ 2 peers)
and builds a fresh state whose `pool` field is NOT set — only the builder
parameters are copied out of the pool.  `valid_for` is the external
bitcoin-address network check (`Address::is_valid_for_network`). -/
def new_peer_with_electrum (valid_for : String → Network → Bool)
    (relay : String) (pool : Pool) (input : Coin) (output : String)
    (network : Network) : Except JoinstrError JoinstrState :=
  match pool.payload with
  | none => Except.error JoinstrError.PoolPayloadMissing
  | some payload =>
    match payload.fee with
    | Fee.Provider _ => Except.error JoinstrError.FeeProviderNotImplemented
    | Fee.Fixed f =>
      match payload.timeout with
      | Timeline.Fixed _ _ => Except.error JoinstrError.TimelineNotImplemented
      | Timeline.Timeout _ _ => Except.error JoinstrError.TimelineNotImplemented
      | Timeline.Simple t =>
        if valid_for output network then
          if payload.peers < 2 then Except.error JoinstrError.Min2Peers
          else
            Except.ok
              { initiator := false
                pool := none
                denomination := some payload.denomination
                peers := some payload.peers
                timeout := some (Timeline.Simple t)
                relays := [relay]
                fee := some (Fee.Fixed f)
                network := network
                coinjoin := none
                electrum_client := some ()
                input := some input
                output := some output
                final_tx := none }
        else Except.error JoinstrError.WrongAddressNetwork

/-- `join_coinjoin` (src/src/interface.rs:184-215), from the decoded pool
to the engine's first action: it builds the peer with
`new_peer_with_electrum` and then calls
`joinstr_peer.start_coinjoin(None, Some(&signer))` — the `pool` argument
passed to the engine is `None`. -/
def join_coinjoin_entry (valid_for : String → Network → Bool)
    (relay : String) (pool : Pool) (input : Coin) (output : String) :
    Except JoinstrError EngineEntry :=
  match new_peer_with_electrum valid_for relay pool input output pool.network with
  | Except.error e => Except.error e
  | Except.ok st => start_coinjoin_entry st none

/-! ## Chain-client worker send retries (src/rust/joinstr/src/electrum.rs)

The retry loop around `try_send_batch` in `Client::listen_txs`
(electrum.rs:282-292, 312-321, 339-350):

    let mut retry = 0usize;
    while let Err(e) = self.inner.try_send_batch(..) {
        retry += 1;
        if retry > 10 { send.send(CoinResponse::Error(..)) .. }
        thread::sleep(Duration::from_millis(50));
    }

The loop is driven by the outcomes of the successive send attempts, given
here as a list of booleans (`true` = the send succeeded).  The result is
`some e` — the loop exited after emitting `e` `Error` responses — when some
attempt in the list succeeds, and `none` when every listed attempt fails
(the loop is still running). -/
def sendRetryGo (retry errs : Nat) : List Bool → Option Nat
  | [] => none
  | true :: _ => some errs
  | false :: rest =>
    sendRetryGo (retry + 1) (if retry + 1 > 10 then errs + 1 else errs) rest

/-- The number of `Error` responses emitted by the send-retry loop of
`Client::listen_txs` on a given trace of send outcomes (`none` while no
send has succeeded yet). -/
def send_retry (attempts : List Bool) : Option Nat :=
  sendRetryGo 0 0 attempts

/-! ## Signer (src/rust/joinstr/src/signer/mod.rs) -/

/-- `signer::Error` (src/rust/joinstr/src/signer/error.rs).  The extra
`PanicSpkNotMatch` case models the `assert_eq!` at signer/mod.rs:334,
which panics instead of returning an error (see the FIXME there). -/
inductive SignerError where
  | TxAlreadyHasInput | SighashFail | InvalidSignature | InvalidTransaction
  | NoElectrumClient | CoinPathWithoutIndex | CoinPath | XPrivFromSeed
  | Derivation | Bip39 | Electrum
  | PanicSpkNotMatch
deriving DecidableEq, Repr

/-- `Psbt::from_unsigned_tx` (rust-bitcoin): fails iff some input carries
script_sig or witness data; otherwise produces a PSBT with one default
input per transaction input. -/
def from_unsigned_tx (tx : Transaction) : Except Unit Psbt :=
  if tx.input.any (fun i => !i.script_sig.isEmpty || !i.witness.isEmpty) then
    Except.error ()
  else
    Except.ok
      { unsigned_tx := tx
        inputs := tx.input.map (fun _ =>
          { witness_utxo := none, sighash_type := none,
            final_script_witness := none }) }

/-- The sighash-type classification relevant to the signer. -/
inductive SighashTy where
  | All | AllPlusAnyoneCanPay | Other
deriving DecidableEq, Repr

/-- `EcdsaSighashType::from_u32` on the values the PSBT layer accepts. -/
def ecdsa_sighash_of_u32 (n : Nat) : Option SighashTy :=
  if n = 0x01 then some SighashTy.All
  else if n = 0x81 then some SighashTy.AllPlusAnyoneCanPay
  else if n = 0x02 ∨ n = 0x03 ∨ n = 0x82 ∨ n = 0x83 then some SighashTy.Other
  else none

/-- The external cryptographic and derivation primitives
`WpkhHotSigner::sign` calls (BIP32 derivation, secp256k1, the BIP143
sighash).  `spk_fn` is the script at `m/84h/0h/0h/depth/index` computed by
`spk_at` for an indexed coin path (the source's `spk_at` errors exactly
when `coin_path.index` is `None`). -/
structure SigCtx where
  spk_fn : CoinPath → List Nat
  hash_msg : Transaction → Nat
  derive_sk : CoinPath → Nat
  pk_of : Nat → Nat
  p2wpkh_spk : Nat → List Nat
  ecdsa_sign : Nat → Nat → Nat
  ecdsa_verify : Nat → Nat → Nat → Bool
  der_encode : Nat → List Nat
  pk_bytes : Nat → List Nat

/-- `WpkhHotSigner::spk_at` (signer/mod.rs:190-192, via `address_at`):
errors iff the coin path has no index. -/
def signer_spk_at (ctx : SigCtx) (cp : CoinPath) : Option (List Nat) :=
  match cp.index with
  | none => none
  | some _ => some (ctx.spk_fn cp)

/-- `WpkhHotSigner::sign` (signer/mod.rs:268-352).  Control flow mirrors
the source: PSBT construction (`InvalidTransaction` on failure), the
non-empty-inputs guard (`TxAlreadyHasInput`), the coin-path script check
(`CoinPath`), the sighash computation pinned to 0x81, key derivation,
signature verification, and the final two-element P2WPKH witness
`[der_sig ++ [0x81], compressed_pubkey]` with `amount =
Some(coin.txout.value)`. -/
def WpkhHotSigner.sign (ctx : SigCtx) (tx : Transaction) (input_data : Coin) :
    Except SignerError InputDataSigned :=
  match from_unsigned_tx tx with
  | Except.error _ => Except.error SignerError.InvalidTransaction
  | Except.ok psbt =>
    if psbt.inputs ≠ [] then Except.error SignerError.TxAlreadyHasInput
    else
      match signer_spk_at ctx input_data.coin_path with
      | none => Except.error SignerError.CoinPath
      | some spk =>
        if input_data.txout.script_pubkey ≠ spk then
          Except.error SignerError.CoinPath
        else
          let pinput : PsbtInput :=
            { witness_utxo := some input_data.txout
              sighash_type := some 0x81
              final_script_witness := none }
          let txin : TxIn :=
            { previous_output := input_data.outpoint
              script_sig := []
              sequence := input_data.sequence
              witness := [] }
          let utx :=
            { psbt.unsigned_tx with input := psbt.unsigned_tx.input ++ [txin] }
          let msg := ctx.hash_msg utx
          match pinput.sighash_type with
          | none => Except.error SignerError.SighashFail
          | some n =>
            match ecdsa_sighash_of_u32 n with
            | none => Except.error SignerError.SighashFail
            | some ty =>
              if ty ≠ SighashTy.AllPlusAnyoneCanPay then
                Except.error SignerError.SighashFail
              else
                let signing_key := ctx.derive_sk input_data.coin_path
                let pubkey := ctx.pk_of signing_key
                let expected_spk := ctx.p2wpkh_spk pubkey
                if expected_spk ≠ input_data.txout.script_pubkey then
                  Except.error SignerError.PanicSpkNotMatch
                else
                  let signature := ctx.ecdsa_sign msg signing_key
                  if !ctx.ecdsa_verify msg signature pubkey then
                    Except.error SignerError.InvalidSignature
                  else
                    Except.ok
                      { txin :=
                          { txin with
                            witness :=
                              [ctx.der_encode signature ++ [0x81],
                               ctx.pk_bytes pubkey] }
                        amount := some input_data.txout.value }

/-! ## Settings validation (src/rust/joinstr_wallet/src/settings.rs) -/

/-- `u16::from_str`: an optional leading plus sign, then at least one
decimal digit, value within `u16` range (0..=65535). -/
def u16_from_str (s : String) : Option Nat :=
  let cs := s.toList
  let ds := match cs with
    | '+' :: rest => rest
    | _ => cs
  if ds.isEmpty then none
  else if ds.all (fun c => c.isDigit) then
    let v := ds.foldl (fun a c => a * 10 + (c.toNat - 48)) 0
    if v ≤ 65535 then some v else none
  else none

/-- `str::split_once(':')` under the guarantee that a colon is present:
the parts strictly before and strictly after the first colon. -/
def splitAtColon (s : String) : String × String :=
  (String.mk (s.toList.takeWhile (fun c => c ≠ ':')),
   String.mk ((s.toList.dropWhile (fun c => c ≠ ':')).tail))

/-- `is_electrum_valid` (settings.rs:73-93) on a decoded (valid UTF-8)
input; the C-string layer (`-1` on invalid UTF-8) is outside the model.
`url_parse` is the external `url::Url::parse(..).is_ok()` check. -/
def is_electrum_valid (url_parse : String → Bool) (s : String) : Int :=
  let separators := s.toList.count ':'
  if separators ≠ 1 then -2
  else
    let url := (splitAtColon s).1
    let port := (splitAtColon s).2
    let portOk := (u16_from_str port).isSome
    let urlOk := url_parse url
    if !urlOk then -3
    else if !portOk then -4
    else 0

/-- A plain decimal natural: at least one digit, nothing else. -/
def decimalNat (s : String) : Option Nat :=
  let ds := s.toList
  if ds.isEmpty then none
  else if ds.all (fun c => c.isDigit) then
    some (ds.foldl (fun a c => a * 10 + (c.toNat - 48)) 0)
  else none

/-- The acceptance condition claimed by the spec for `is_electrum_valid`:
exactly one colon, the part before it parses as a URL, and the part after
it is an integer in [1, 65535]. -/
def electrum_spec_accept (url_parse : String → Bool) (s : String) : Prop :=
  s.toList.count ':' = 1 ∧ url_parse (splitAtColon s).1 = true ∧
    ∃ n, decimalNat (splitAtColon s).2 = some n ∧ 1 ≤ n ∧ n ≤ 65535

/-! ## Concrete sample values used by witnesses and counterexamples -/

def txSample : Transaction :=
  { version := 2, lock_time := 0, input := [], output := [] }

def payloadSample : PoolPayload :=
  { denomination := 1000000, peers := 2, timeout := Timeline.Simple 12345,
    relays := ["wss://relay"], fee := Fee.Fixed 12,
    transport := { vpn := none, tor := none } }

def poolSample : Pool :=
  { versions := some ["0"], id := "pool-id", network := Network.regtest,
    pool_type := PoolType.Create, public_key := "abc",
    payload := some payloadSample }

def stBase : JoinstrState :=
  { initiator := false, pool := none, denomination := none, peers := none,
    timeout := none, relays := [], fee := none, network := Network.regtest,
    coinjoin := none, electrum_client := none, input := none, output := none,
    final_tx := none }

def payloadTimeoutSample : PoolPayload :=
  { payloadSample with timeout := Timeline.Timeout 1000 10 }

def poolTimeoutSample : Pool :=
  { poolSample with payload := some payloadTimeoutSample }

def stTimeoutSample : JoinstrState :=
  { stBase with pool := some poolTimeoutSample }

def cjFinalized : CoinJoin :=
  { denomination := 1000000, min_fee := 1, min_peers := 2,
    outputs := ["addr1", "addr2"], inputs := [], psbt := none,
    tx := some txSample, backend := none }

def stBroadcast : JoinstrState :=
  { stBase with
    pool := some poolSample,
    coinjoin := some cjFinalized,
    electrum_client := some () }

def inputSample : InputDataSigned :=
  { txin := { previous_output := { txid := 7, vout := 0 }, script_sig := [],
              sequence := 0, witness := [[1]] },
    amount := some 1000000 }

def cjWithInput : CoinJoin :=
  { denomination := 1000000, min_fee := 1, min_peers := 2, outputs := [],
    inputs := [inputSample], psbt := none, tx := none, backend := none }

def stWithInput : JoinstrState :=
  { stBase with pool := some poolSample, coinjoin := some cjWithInput }

def cjOutputs2 : CoinJoin :=
  { cjFinalized with tx := none }

def coinSample : Coin :=
  { txout := { value := 1100000, script_pubkey := [0, 20] },
    outpoint := { txid := 1, vout := 0 }, sequence := 4294967293,
    coin_path := { depth := 0, index := some 11 } }

/-- A trivial instantiation of the signer's external primitives, used to
evaluate the embedded `sign` on concrete inputs. -/
def ctxTrivial : SigCtx :=
  { spk_fn := fun _ => [0], hash_msg := fun _ => 0, derive_sk := fun _ => 0,
    pk_of := fun _ => 0, p2wpkh_spk := fun _ => [0],
    ecdsa_sign := fun _ _ => 0, ecdsa_verify := fun _ _ _ => true,
    der_encode := fun _ => [48], pk_bytes := fun _ => [2] }

def txWithSignedInput : Transaction :=
  { version := 1, lock_time := 0,
    input := [{ previous_output := { txid := 9, vout := 1 },
                script_sig := [], sequence := 0, witness := [[1]] }],
    output := [] }

def txWithCleanInput : Transaction :=
  { version := 1, lock_time := 0,
    input := [{ previous_output := { txid := 9, vout := 1 },
                script_sig := [], sequence := 0, witness := [] }],
    output := [] }

def coinForSign : Coin :=
  { txout := { value := 5, script_pubkey := [0] },
    outpoint := { txid := 1, vout := 0 }, sequence := 4,
    coin_path := { depth := 0, index := some 3 } }

def rSigned : InputDataSigned :=
  { txin := { previous_output := { txid := 1, vout := 0 }, script_sig := [],
              sequence := 4, witness := [[48, 129], [2]] },
    amount := some 5 }

/-! ## C1 — codec roundtrip: definitions -/

def Json.isStr : Json → Bool
  | Json.str _ => true
  | _ => false

/-- The facts about the external serialization primitives (rust-bitcoin
consensus codec, serde impls) that the roundtrip argument uses, stated at
the message being round-tripped:
* consensus `deserialize_hex ∘ serialize_hex` restores a `TxIn` up to its
  witness (not part of the encoding), restores a witness, and restores a
  `Transaction`;
* `Address`/`PublicKey`/`Credentials` serde parse back their own
  serializations;
* the derived serde form of a `Psbt` is a JSON object, not a JSON string;
* amounts are u64, hence < 2^64. -/
def CodecAssumptions (P : SerdePrims) : PoolMessage → Prop
  | PoolMessage.Input i =>
      P.deser_txin (P.ser_txin i.txin) = some (clearWitness i.txin) ∧
      P.deser_witness (P.ser_witness i.txin.witness) = some i.txin.witness ∧
      (∀ a, i.amount = some a → a < 2 ^ 64)
  | PoolMessage.Output a => P.addr_from_str a = some a
  | PoolMessage.Psbt p => (P.psbt_to_value p).isStr = false
  | PoolMessage.Transaction t => P.deser_tx (P.ser_tx t) = some t
  | PoolMessage.Join npub =>
      (match npub with
       | some pk => P.pk_from_value (Json.str pk) = some pk
       | none => True)
  | PoolMessage.Credentials c => P.cred_from_value (credToValue c) = some c

/-- What `parse ∘ serialize` actually returns per variant: the original
message for `Join` (with and without pubkey), `Credentials`, `Output`,
`Transaction` and `Input` with an amount — but an error for `Input`
without an amount (the serializer omits the `amount` key the parser
requires) and for `Psbt` (the serializer emits the derived serde value
where the parser expects a JSON string). -/
def codecExpected (m : PoolMessage) : Except ParsingError PoolMessage :=
  match m with
  | PoolMessage.Input i =>
    match i.amount with
    | none => Except.error (ParsingError.MissingKey "amount")
    | some _ => Except.ok m
  | PoolMessage.Psbt _ => Except.error ParsingError.Psbt
  | _ => Except.ok m

def txinEmptyWitness : TxIn :=
  { previous_output := { txid := 0, vout := 0 }, script_sig := [],
    sequence := 0, witness := [] }

/-- A small concrete instantiation of the external serialization
primitives, used to evaluate the codec on concrete messages. -/
def primsSample : SerdePrims :=
  { ser_txin := fun _ => "txinhex"
    deser_txin := fun s => if s = "txinhex" then some txinEmptyWitness else none
    ser_witness := fun _ => "withex"
    deser_witness := fun s => if s = "withex" then some [] else none
    ser_tx := fun _ => "txhex"
    deser_tx := fun s => if s = "txhex" then some txSample else none
    psbt_to_value := fun _ => Json.obj []
    psbt_from_str := fun _ => none
    addr_from_str := fun a => some a
    pk_from_value := fun v =>
      match v with
      | Json.str s => some s
      | _ => none
    cred_from_value := fun v =>
      match v with
      | Json.obj [("id", Json.str i), ("key", Json.str k)] =>
        some { id := i, key := k }
      | _ => none }

def inputMsgNoAmount : PoolMessage :=
  PoolMessage.Input { txin := txinEmptyWitness, amount := none }

def inputMsgWithAmount : PoolMessage :=
  PoolMessage.Input { txin := txinEmptyWitness, amount := some 1000000 }

/-! ## C5 — `register_outputs` post-conditions -/

/-- C5: after the output-registration loop, `register_outputs` returns
`Timeout` when the current time is past the final deadline; otherwise
`NotEnoughPeers(joined, min_peers)` when fewer peers joined than
`min_peers`; otherwise `PeerCountNotMatch(outputs, peers)` when the count
of registered outputs differs from the count of joined peers; and it
succeeds, storing the assembler, exactly when the output count equals the
peer count, the peer count is at least `min_peers`, and the deadline has
not passed. -/
theorem register_outputs_final_spec (now expired peers_len min_peers : Nat)
    (cj : CoinJoin) :
    (now > expired →
      register_outputs_final now expired peers_len min_peers cj =
        Except.error JoinstrError.Timeout) ∧
    (now ≤ expired → peers_len < min_peers →
      register_outputs_final now expired peers_len min_peers cj =
        Except.error (JoinstrError.NotEnoughPeers peers_len min_peers)) ∧
    (now ≤ expired → min_peers ≤ peers_len → cj.outputs.length ≠ peers_len →
      register_outputs_final now expired peers_len min_peers cj =
        Except.error (JoinstrError.PeerCountNotMatch cj.outputs.length peers_len)) ∧
    (register_outputs_final now expired peers_len min_peers cj = Except.ok cj ↔
      now ≤ expired ∧ min_peers ≤ peers_len ∧ cj.outputs.length = peers_len) := by
  unfold register_outputs_final
  refine ⟨?_, ?_, ?_, ?_⟩
  · intro h
    rw [if_pos h]
  · intro h1 h2
    rw [if_neg (by omega), if_pos h2]
  · intro h1 h2 h3
    rw [if_neg (by omega), if_neg (by omega), if_pos h3]
  · constructor
    · intro h
      split_ifs at h with h1 h2 h3
      all_goals simp_all
    · rintro ⟨h1, h2, h3⟩
      rw [if_neg (by omega), if_neg (by omega), if_neg (by omega)]

theorem register_outputs_final_spec_witness :
    register_outputs_final 3 10 2 2 cjOutputs2 = Except.ok cjOutputs2 :=
  ((register_outputs_final_spec 3 10 2 2 cjOutputs2).2.2.2).mpr
    ⟨by omega, by omega, rfl⟩

/-! ## C6 — input-registration deadline for the `Timeout` timeline -/

/-- C6 counterexample: for the pool timeline `Timeout {timeout := 1000,
max_duration := 10}`, when input registration starts at `now = 5000` the
deadline `register_inputs` computes is `5010 = now + max_duration`, while
`end_timeline` computes `1010 = timeout + max_duration`; the two differ,
so the engine's input-registration deadline is NOT the `end_timeline`
value. -/
theorem register_inputs_deadline_counterexample :
    register_inputs_deadline 5000 (Timeline.Timeout 1000 10) = 5010 ∧
    end_timeline stTimeoutSample = Except.ok 1010 ∧ (5010 : Nat) ≠ 1010 :=
  ⟨rfl, rfl, by decide⟩

/-- C6 (amended): for the `Timeout {timeout, max_duration}` timeline the
deadline `register_inputs` uses is `now + max_duration`, where `now` is
the time input registration starts — not the `timeout + max_duration`
value that `end_timeline` computes (they agree only when registration
starts exactly at `timeout`). -/
theorem register_inputs_deadline_timeout (now t d : Nat) :
    register_inputs_deadline now (Timeline.Timeout t d) = now + d ∧
    (∀ (st : JoinstrState) (p : Pool) (pay : PoolPayload),
      st.pool = some p → p.payload = some pay →
      pay.timeout = Timeline.Timeout t d → t + d < 2 ^ 64 →
      end_timeline st = Except.ok (t + d)) := by
  constructor
  · rfl
  · intro st p pay hp hpay ht hlt
    simp only [end_timeline, pool_exists, payload_as_ref, hp, hpay, ht]
    rw [if_pos hlt]

theorem register_inputs_deadline_timeout_witness :
    register_inputs_deadline 5000 (Timeline.Timeout 1000 10) = 5010 ∧
    end_timeline stTimeoutSample = Except.ok 1010 := by
  have h := register_inputs_deadline_timeout 5000 1000 10
  exact ⟨h.1, h.2 stTimeoutSample _ _ rfl rfl rfl (by norm_num)⟩

/-! ## C3 — `broadcast_tx` and the `final_tx` cache -/

/-- C3 counterexample: with a finalized transaction, a chain backend and a
failing broadcast, `broadcast_tx` surfaces the electrum error and leaves
`final_tx` unset (`None`) — the transaction is NOT cached when the
broadcast fails. -/
theorem broadcast_tx_counterexample :
    (broadcast_tx stBroadcast (Except.error ElectrumError.WrongResponse)).1 =
      Except.error (JoinstrError.Electrum ElectrumError.WrongResponse) ∧
    ((broadcast_tx stBroadcast
        (Except.error ElectrumError.WrongResponse)).2).final_tx = none :=
  ⟨rfl, rfl⟩

/-- C3 (amended): after finalization, `broadcast_tx` stores the finalized
transaction in `final_tx` only when no chain backend is attached or the
broadcast call succeeds; when the backend's broadcast returns an error,
the error is surfaced and the state — in particular `final_tx` — is left
unchanged. -/
theorem broadcast_tx_spec (st : JoinstrState)
    (bres : Except ElectrumError Unit) (cj : CoinJoin) (tx : Transaction)
    (hpool : pool_exists st = Except.ok ()) (hcj : st.coinjoin = some cj)
    (htx : cj.tx = some tx) :
    (∀ e, st.electrum_client.isSome → bres = Except.error e →
      broadcast_tx st bres = (Except.error (JoinstrError.Electrum e), st)) ∧
    (st.electrum_client = none ∨ bres = Except.ok () →
      broadcast_tx st bres = (Except.ok (), { st with final_tx := some tx })) := by
  constructor
  · intro e hcl hb
    match hcl2 : st.electrum_client with
    | none => rw [hcl2] at hcl; exact absurd hcl (by simp)
    | some _ => simp [broadcast_tx, hpool, hcj, htx, hcl2, hb]
  · intro h
    rcases h with hcl | hb
    · simp [broadcast_tx, hpool, hcj, htx, hcl]
    · match hcl2 : st.electrum_client with
      | none => simp [broadcast_tx, hpool, hcj, htx, hcl2]
      | some _ => simp [broadcast_tx, hpool, hcj, htx, hcl2, hb]

theorem broadcast_tx_spec_witness :
    broadcast_tx stBroadcast (Except.ok ()) =
      (Except.ok (), { stBroadcast with final_tx := some txSample }) :=
  (broadcast_tx_spec stBroadcast (Except.ok ()) cjFinalized txSample
    rfl rfl rfl).2 (Or.inr rfl)

/-! ## C4 — assembler rejections during input registration -/

/-- C4 counterexample: an input whose outpoint is already registered is
rejected by the assembler with the typed error `DoubleSpend`, yet
`try_register_input` returns `Ok(())` and leaves the state unchanged —
the engine silently drops the bad input and keeps waiting instead of
surfacing the error. -/
theorem try_register_input_counterexample :
    CoinJoin.add_input cjWithInput inputSample =
      Except.error CoinjoinError.DoubleSpend ∧
    try_register_input stWithInput inputSample = (Except.ok (), stWithInput) :=
  ⟨rfl, rfl⟩

/-- C4 (amended): when the assembler is present, `try_register_input`
always returns `Ok(())`: a rejection by `CoinJoin::add_input` (double
spend, value mismatch, amount too low, …) is only logged, the input is
dropped, the state is unchanged, and the round keeps waiting.  Only a
missing assembler (`CoinjoinMissing`) is surfaced. -/
theorem try_register_input_swallows (st : JoinstrState)
    (input : InputDataSigned) (cj : CoinJoin) (h : st.coinjoin = some cj) :
    (try_register_input st input).1 = Except.ok () ∧
    (∀ e, cj.add_input input = Except.error e →
      (try_register_input st input).2 = st) := by
  constructor
  · simp only [try_register_input, h]
    match cj.add_input input with
    | Except.error _ => rfl
    | Except.ok _ => rfl
  · intro e he
    simp [try_register_input, h, he]

/-! ## C7 — chain-client worker send retries -/

theorem sendRetryGo_replicate_false_append (k : Nat) (rest : List Bool) :
    ∀ r e : Nat,
      sendRetryGo r e (List.replicate k false ++ true :: rest) =
        some (e + ((r + k) - max r 10)) := by
  induction k with
  | zero =>
    intro r e
    simp only [List.replicate, List.nil_append, sendRetryGo, Option.some.injEq]
    omega
  | succ n ih =>
    intro r e
    simp only [List.replicate_succ, List.cons_append, sendRetryGo,
      List.append_eq]
    rw [ih]
    simp only [Option.some.injEq]
    split_ifs with h <;> omega

theorem sendRetryGo_replicate_false (k : Nat) :
    ∀ r e : Nat, sendRetryGo r e (List.replicate k false) = none := by
  induction k with
  | zero => intro r e; rfl
  | succ n ih =>
    intro r e
    simp only [List.replicate_succ, sendRetryGo]
    exact ih _ _

/-- C7 counterexample: on a trace where the first 12 send attempts fail and
the 13th succeeds, the worker emits TWO `Error` responses (not exactly
one) and has retried 12 times (not at most 10); and on a trace of 20
failures it has not given up — `send_retry` is still `none`, i.e. the
worker is still retrying the send rather than continuing with the rest of
its loop. -/
theorem send_retry_counterexample :
    send_retry (List.replicate 12 false ++ [true]) = some 2 ∧
    send_retry (List.replicate 20 false) = none := by
  exact ⟨rfl, rfl⟩

/-- C7 (amended): the worker never abandons a failing send: it keeps
retrying (with 50 ms sleeps) until a send succeeds, and the loop
terminates only on success — on a trace of `k` failures followed by a
success it emits `k - 10` `Error` responses (one per failed attempt from
the 11th on), and on a trace of only failures it is still retrying. -/
theorem send_retry_spec (k : Nat) (rest : List Bool) :
    send_retry (List.replicate k false ++ true :: rest) = some (k - 10) ∧
    send_retry (List.replicate k false) = none := by
  constructor
  · rw [send_retry, sendRetryGo_replicate_false_append]
    simp only [Option.some.injEq]
    omega
  · rw [send_retry, sendRetryGo_replicate_false]

/-! ## C2 — `join_coinjoin` takes the initiator path -/

/-- C2: `join_coinjoin` builds a peer from the decoded pool but then calls
`start_coinjoin(None, Some(&signer))`: since the engine's `pool` argument
is `None` (and the peer state's `pool` field was never set), the engine
takes the initiator branch and POSTS a fresh pool announcement — it never
sends `Join(Some(own_pubkey))` to the decoded pool's `public_key`.  This
contradicts `join_coinjoin`'s own doc ("Try to join an already initiated
coinjoin") and `start_coinjoin`'s doc ("if a `pool` arg is passed, it will
join the pool"): the call should pass `Some(pool)`. -/
theorem join_coinjoin_is_initiator (valid_for : String → Network → Bool)
    (relay : String) (pool : Pool) (input : Coin) (output : String)
    (pay : PoolPayload) (f t : Nat)
    (hpay : pool.payload = some pay) (hfee : pay.fee = Fee.Fixed f)
    (htl : pay.timeout = Timeline.Simple t)
    (haddr : valid_for output pool.network = true) (hpeers : 2 ≤ pay.peers) :
    join_coinjoin_entry valid_for relay pool input output =
      Except.ok EngineEntry.announced ∧
    (∀ target, EngineEntry.announced ≠ EngineEntry.joined target) := by
  constructor
  · simp only [join_coinjoin_entry, new_peer_with_electrum, hpay, hfee, htl,
      haddr, if_true, if_neg (by omega : ¬pay.peers < 2)]
    simp [start_coinjoin_entry, is_ready, pool_not_exists]
  · intro target h
    exact nomatch h

theorem join_coinjoin_is_initiator_witness :
    join_coinjoin_entry (fun _ _ => true) "wss://relay" poolSample coinSample
      "bcrt1addr" = Except.ok EngineEntry.announced :=
  (join_coinjoin_is_initiator (fun _ _ => true) "wss://relay" poolSample
    coinSample "bcrt1addr" payloadSample 12 12345 rfl rfl rfl rfl
    (by decide)).1

theorem try_register_input_swallows_witness :
    (try_register_input stWithInput inputSample).1 = Except.ok () ∧
    (try_register_input stWithInput inputSample).2 = stWithInput :=
  ⟨(try_register_input_swallows stWithInput inputSample cjWithInput rfl).1,
   (try_register_input_swallows stWithInput inputSample cjWithInput rfl).2
     CoinjoinError.DoubleSpend rfl⟩

/-! ## C8 — `sign` refuses transactions that already have inputs -/

theorem allClean_iff_not_any (l : List TxIn) :
    l.all (fun i => i.script_sig.isEmpty && i.witness.isEmpty) =
      !(l.any (fun i => !i.script_sig.isEmpty || !i.witness.isEmpty)) := by
  induction l with
  | nil => rfl
  | cons a l ih => simp [ih, Bool.not_or]

/-- C8 counterexample: a transaction whose single input already carries a
witness is refused by `sign`, but with `InvalidTransaction` (the PSBT
construction fails), not with `TxAlreadyHasInput` as the claim states for
EVERY transaction with an input. -/
theorem sign_nonempty_input_counterexample :
    WpkhHotSigner.sign ctxTrivial txWithSignedInput coinSample =
      Except.error SignerError.InvalidTransaction ∧
    SignerError.InvalidTransaction ≠ SignerError.TxAlreadyHasInput :=
  ⟨rfl, by decide⟩

/-- C8 (amended): `sign` refuses every transaction that already has an
input, and it can produce a signed input only for transactions whose input
list is empty; the refusal error is `TxAlreadyHasInput` when the existing
inputs carry no script_sig/witness data (so the PSBT construction
succeeds), and `InvalidTransaction` when some input does. -/
theorem sign_refuses_tx_with_inputs (ctx : SigCtx) (tx : Transaction)
    (coin : Coin) (h : tx.input ≠ []) :
    (tx.input.all (fun i => i.script_sig.isEmpty && i.witness.isEmpty) = true →
      WpkhHotSigner.sign ctx tx coin =
        Except.error SignerError.TxAlreadyHasInput) ∧
    (tx.input.all (fun i => i.script_sig.isEmpty && i.witness.isEmpty) = false →
      WpkhHotSigner.sign ctx tx coin =
        Except.error SignerError.InvalidTransaction) ∧
    (∀ r, WpkhHotSigner.sign ctx tx coin ≠ Except.ok r) := by
  have hb := allClean_iff_not_any tx.input
  refine ⟨?_, ?_, ?_⟩
  · intro hall
    rw [hall] at hb
    have hc : tx.input.any
        (fun i => !i.script_sig.isEmpty || !i.witness.isEmpty) = false := by
      cases hany : tx.input.any
        (fun i => !i.script_sig.isEmpty || !i.witness.isEmpty)
      · rfl
      · rw [hany] at hb; exact absurd hb (by simp)
    simp [WpkhHotSigner.sign, from_unsigned_tx, hc, h]
  · intro hall
    rw [hall] at hb
    have hc : tx.input.any
        (fun i => !i.script_sig.isEmpty || !i.witness.isEmpty) = true := by
      cases hany : tx.input.any
        (fun i => !i.script_sig.isEmpty || !i.witness.isEmpty)
      · rw [hany] at hb; exact absurd hb (by simp)
      · rfl
    simp [WpkhHotSigner.sign, from_unsigned_tx, hc]
  · intro r hr
    cases hany : tx.input.any
        (fun i => !i.script_sig.isEmpty || !i.witness.isEmpty)
    · simp [WpkhHotSigner.sign, from_unsigned_tx, hany, h] at hr
    · simp [WpkhHotSigner.sign, from_unsigned_tx, hany] at hr

theorem sign_refuses_tx_with_inputs_witness :
    WpkhHotSigner.sign ctxTrivial txWithCleanInput coinSample =
      Except.error SignerError.TxAlreadyHasInput ∧
    WpkhHotSigner.sign ctxTrivial txWithSignedInput coinSample =
      Except.error SignerError.InvalidTransaction :=
  ⟨(sign_refuses_tx_with_inputs ctxTrivial txWithCleanInput coinSample
      (by decide)).1 (by decide),
   (sign_refuses_tx_with_inputs ctxTrivial txWithSignedInput coinSample
      (by decide)).2.1 (by decide)⟩

/-! ## C10 — shape of a successfully signed input -/

/-- C10: every `InputDataSigned` produced by a successful
`WpkhHotSigner::sign(tx, coin)` carries `amount = Some(coin.txout.value)`,
a txin whose previous_output is `coin.outpoint` and whose sequence is
`coin.sequence`, and a two-element P2WPKH witness whose signature element
ends with the sighash byte 0x81 (`SIGHASH_ALL | SIGHASH_ANYONECANPAY`). -/
theorem sign_success_shape (ctx : SigCtx) (tx : Transaction) (coin : Coin)
    (r : InputDataSigned) (h : WpkhHotSigner.sign ctx tx coin = Except.ok r) :
    r.amount = some coin.txout.value ∧
    r.txin.previous_output = coin.outpoint ∧
    r.txin.sequence = coin.sequence ∧
    ∃ sig pk, r.txin.witness = [sig ++ [0x81], pk] := by
  simp only [WpkhHotSigner.sign, signer_spk_at,
    show ecdsa_sighash_of_u32 129 = some SighashTy.AllPlusAnyoneCanPay from rfl,
    show (SighashTy.AllPlusAnyoneCanPay ≠ SighashTy.AllPlusAnyoneCanPay) = False
      by simp, if_false] at h
  repeat' split at h
  all_goals first
    | exact Except.noConfusion h
    | (injection h with h2; subst h2; exact ⟨rfl, rfl, rfl, _, _, rfl⟩)

theorem sign_success_shape_witness :
    WpkhHotSigner.sign ctxTrivial txSample coinForSign = Except.ok rSigned ∧
    (rSigned.amount = some coinForSign.txout.value ∧
      rSigned.txin.previous_output = coinForSign.outpoint ∧
      rSigned.txin.sequence = coinForSign.sequence ∧
      ∃ sig pk, rSigned.txin.witness = [sig ++ [0x81], pk]) :=
  ⟨rfl, sign_success_shape ctxTrivial txSample coinForSign rSigned rfl⟩

/-! ## C9 — `is_electrum_valid` acceptance -/

/-- C9: `is_electrum_valid` returns 0 exactly on the strings the spec
describes — given the one fact that matters about the external URL parser:
`url::Url::parse` accepts only absolute URLs, which always contain the
`:` after their scheme, so it accepts no string with no colon.  Both sides
of the equivalence are then empty: the part before the single allowed
colon can never itself parse as a URL, so `is_electrum_valid` accepts
NOTHING (it returns -3 on every well-formed `<url>:<port>` candidate), and
the spec's acceptance set — which additionally requires `port ∈ [1,
65535]`, while the code checks only `u16` parseability (which would also
accept 0) — is empty for the same reason.  The port-range discrepancy is
therefore unobservable. -/
theorem is_electrum_valid_spec (url_parse : String → Bool)
    (hu : ∀ t, url_parse t = true → ':' ∈ t.toList) (s : String) :
    is_electrum_valid url_parse s = 0 ↔ electrum_spec_accept url_parse s := by
  have hnc : ':' ∉ s.toList.takeWhile (fun c => c ≠ ':') := by
    intro hmem
    have hp := List.mem_takeWhile_imp hmem
    simp at hp
  have hurl : url_parse (splitAtColon s).1 = false := by
    cases hup : url_parse (splitAtColon s).1
    · rfl
    · exfalso
      have hc := hu _ hup
      exact hnc hc
  constructor
  · intro h
    exfalso
    simp only [is_electrum_valid, hurl] at h
    split_ifs at h with h1
    all_goals simp_all
  · rintro ⟨h1, h2, h3⟩
    rw [hurl] at h2
    exact absurd h2 (by simp)

theorem is_electrum_valid_spec_witness :
    (∀ t : String, (fun _ : String => false) t = true → ':' ∈ t.toList) ∧
    is_electrum_valid (fun _ => false) "localhost:50001" = -3 ∧
    (is_electrum_valid (fun _ => false) "localhost:50001" = 0 ↔
      electrum_spec_accept (fun _ => false) "localhost:50001") :=
  ⟨fun _ h => absurd h (by simp), rfl,
   is_electrum_valid_spec (fun _ => false)
     (fun _ h => absurd h (by simp)) "localhost:50001"⟩

/-! ## C1 — codec roundtrip: theorems -/

/-- C1 counterexample: serializing `Input` with `amount = None` omits the
`amount` key, which `InputDataSigned::from_value` requires — parsing the
serialized form fails with `MissingKey("amount")` instead of returning the
message, so the codec is not round-trip lossless on this encodable
variant. -/
theorem pool_message_codec_counterexample :
    PoolMessage.from_str primsSample
        (PoolMessage.to_json primsSample inputMsgNoAmount) =
      Except.error (ParsingError.MissingKey "amount") ∧
    Except.error (ParsingError.MissingKey "amount") ≠
      (Except.ok inputMsgNoAmount : Except ParsingError PoolMessage) := by
  refine ⟨rfl, ?_⟩
  intro hco
  exact Except.noConfusion hco

/-- C1 (amended): assuming the external serialization primitives restore
what they serialized (`CodecAssumptions`), `parse (serialize m)` returns
`m` for `Join` (with and without pubkey), `Credentials`, `Output`,
`Transaction`, and `Input` carrying an amount; but it FAILS for `Input`
without an amount (`MissingKey("amount")`: the serializer omits the key
the parser requires) and for `Psbt` (`ParsingError::Psbt`: the serializer
stores `serde_json::to_value(psbt)` — a JSON object — where the parser
requires a JSON string). -/
theorem amountFromValue_ofNat (a : Nat) (hb : a < 2 ^ 64) :
    amountFromValue (Json.num (a : Int)) = some a := by
  have hpow : (2 : Nat) ^ 64 = 18446744073709551616 := by norm_num
  rw [hpow] at hb
  have he : amountFromValue (Json.num (a : Int)) =
      if a < 18446744073709551616 then some a else none := rfl
  rw [he, if_pos hb]

theorem pool_message_codec (P : SerdePrims) (m : PoolMessage)
    (h : CodecAssumptions P m) :
    PoolMessage.from_str P (PoolMessage.to_json P m) = codecExpected m := by
  cases m with
  | Input i =>
    obtain ⟨h1, h2, h3⟩ := h
    obtain ⟨txin, amount⟩ := i
    obtain ⟨po, ss, seq, wit⟩ := txin
    cases amount with
    | none =>
      simp [PoolMessage.from_str, PoolMessage.to_json, PoolMessage.msgType,
        PoolMessage.parseTyped, InputDataSigned.to_json,
        InputDataSigned.from_value, getKey, codecExpected, h1, h2]
    | some a =>
      have hAm := amountFromValue_ofNat a (h3 a rfl)
      have step2 : InputDataSigned.from_value P
          (InputDataSigned.to_json P ⟨⟨po, ss, seq, wit⟩, some a⟩) =
          match P.deser_txin (P.ser_txin ⟨po, ss, seq, wit⟩) with
          | none => Except.error ParsingError.Consensus
          | some txin2 =>
            match P.deser_witness (P.ser_witness wit) with
            | none => Except.error ParsingError.Consensus
            | some wit2 =>
              match amountFromValue (Json.num (a : Int)) with
              | none => Except.error ParsingError.SerdeJson
              | some am =>
                Except.ok { txin := { txin2 with witness := wit2 },
                            amount := some am } := rfl
      rw [h1, h2, hAm] at step2
      have step1 : PoolMessage.from_str P
          (PoolMessage.to_json P
            (PoolMessage.Input ⟨⟨po, ss, seq, wit⟩, some a⟩)) =
          match InputDataSigned.from_value P
              (InputDataSigned.to_json P ⟨⟨po, ss, seq, wit⟩, some a⟩) with
          | Except.ok input => Except.ok (PoolMessage.Input input)
          | Except.error e => Except.error e := rfl
      rw [step1, step2]
      rfl
  | Output a =>
    simp only [CodecAssumptions] at h
    simp [PoolMessage.from_str, PoolMessage.to_json, PoolMessage.msgType,
      PoolMessage.parseTyped, getKey, codecExpected, h]
  | Psbt p =>
    simp only [CodecAssumptions] at h
    simp [PoolMessage.from_str, PoolMessage.to_json, PoolMessage.msgType,
      PoolMessage.parseTyped, getKey, codecExpected]
    split
    all_goals simp_all [Json.isStr]
  | Transaction t =>
    simp only [CodecAssumptions] at h
    simp [PoolMessage.from_str, PoolMessage.to_json, PoolMessage.msgType,
      PoolMessage.parseTyped, getKey, codecExpected, h]
  | Join npub =>
    cases npub with
    | none =>
      simp [PoolMessage.from_str, PoolMessage.to_json, PoolMessage.msgType,
        PoolMessage.parseTyped, getKey, codecExpected]
    | some pk =>
      simp only [CodecAssumptions] at h
      simp [PoolMessage.from_str, PoolMessage.to_json, PoolMessage.msgType,
        PoolMessage.parseTyped, getKey, codecExpected, h]
  | Credentials c =>
    simp only [CodecAssumptions, credToValue] at h
    simp [PoolMessage.from_str, PoolMessage.to_json, PoolMessage.msgType,
      PoolMessage.parseTyped, getKey, codecExpected, credToValue, h]

theorem pool_message_codec_witness :
    CodecAssumptions primsSample inputMsgWithAmount ∧
    PoolMessage.from_str primsSample
        (PoolMessage.to_json primsSample inputMsgWithAmount) =
      Except.ok inputMsgWithAmount := by
  have ha : CodecAssumptions primsSample inputMsgWithAmount := by
    refine ⟨rfl, rfl, ?_⟩
    intro a haeq
    injection haeq with haeq2
    subst haeq2
    norm_num
  exact ⟨ha, pool_message_codec primsSample inputMsgWithAmount ha⟩

end Joinstr
